import Mathlib

/-!
# Verification of the openbench-studio Run Execution Engine

A shallow embedding, in Lean 4, of the core of the openbench-studio
backend:

* the failure classifier `RunExecutor._detect_failure`
  (`backend/app/runner/executor.py`),
* the retry policy `calculate_delay` (`backend/app/core/retry.py`),
* the executor retry loop `RunExecutor.execute_run` and the cancellation
  entry point `RunExecutor.cancel_run` (`backend/app/runner/executor.py`),
* the log tailer `tail_file` and the WebSocket broadcast / progress
  de-duplication logic (`backend/app/api/routes/ws.py`),
* the progress parser `parse_progress`
  (`backend/app/runner/progress_parser.py`).

Python machine-level details are modelled as follows: floats become `ℚ`
(the values involved are decimal literals and ratios of small integers);
the random jitter draw `random.uniform(-a, a)` becomes an explicit
parameter `u` constrained by `|u| ≤ a` in theorems; wall-clock
timestamps, file-system paths and logging calls are elided; the shared
mutable maps of the executor become explicit state records; the
concurrently-observed values (cancellation flags, subprocess exit codes,
log contents) become per-attempt observation records supplied by an
oracle `Nat → AttemptObs`.
-/

set_option autoImplicit false

namespace OpenBench

/-! ## Run data model (`backend/app/db/models.py`) -/

/-- `RunStatus` enum from `app/db/models.py`. -/
inductive RunStatus where
  | QUEUED
  | RUNNING
  | COMPLETED
  | FAILED
  | CANCELED
deriving DecidableEq, Repr

/-- The string value of each `RunStatus` member (it is a `str` enum). -/
def RunStatus.value : RunStatus → String
  | .QUEUED => "queued"
  | .RUNNING => "running"
  | .COMPLETED => "completed"
  | .FAILED => "failed"
  | .CANCELED => "canceled"

/-- `RunConfig` from `app/db/models.py`.  Floats are modelled as `ℚ`. -/
structure RunConfig where
  schema_version : Int := 1
  benchmark : String
  model : String
  limit : Option Int := none
  temperature : Option ℚ := none
  top_p : Option ℚ := none
  max_tokens : Option Int := none
  timeout : Option Int := none
  epochs : Option Int := none
  max_connections : Option Int := none
deriving DecidableEq, Repr

/-- `Run` from `app/db/models.py`.  The wall-clock timestamp fields
(`created_at`, `started_at`, `finished_at`) and `artifact_dir` are not
modelled; no claim depends on their values. -/
structure Run where
  run_id : String
  user_id : Option String := none
  benchmark : String
  model : String
  status : RunStatus := .QUEUED
  exit_code : Option Int := none
  error : Option String := none
  config : Option RunConfig := none
  primary_metric : Option ℚ := none
  primary_metric_name : Option String := none
  tags : List String := []
  notes : Option String := none
deriving DecidableEq, Repr

/-! ## Failure classifier (`RunExecutor._detect_failure`) -/

/-- `needle` is a prefix of `haystack` (on character lists). -/
def charsPrefix : List Char → List Char → Bool
  | [], _ => true
  | _ :: _, [] => false
  | a :: as, b :: bs => a == b && charsPrefix as bs

/-- `needle` occurs contiguously inside `haystack`. -/
def charsInfix (needle : List Char) : List Char → Bool
  | [] => charsPrefix needle []
  | b :: bs => charsPrefix needle (b :: bs) || charsInfix needle bs

/-- Python's substring test `pat in content`. -/
def containsPat (content pat : String) : Bool :=
  charsInfix pat.toList content.toList

/-- One entry of the `failure_patterns` table in
`RunExecutor._detect_failure`: `(pattern, default_message, is_retryable)`. -/
structure FailRule where
  pattern : String
  defaultMessage : Option String
  retryable : Bool
deriving DecidableEq, Repr

/-- The ordered `failure_patterns` table from
`RunExecutor._detect_failure` (executor.py lines 172-196). -/
def failure_patterns : List FailRule := [
  ⟨"Task interrupted (no samples completed", some "Benchmark interrupted - no samples completed", false⟩,
  ⟨"Error code:", none, false⟩,
  ⟨"NotFoundError:", some "Model not found or access denied", false⟩,
  ⟨"does not exist or you do not have access", some "Model not found or access denied", false⟩,
  ⟨"model_not_found", some "Model not found", false⟩,
  ⟨"AuthenticationError:", some "Authentication failed - check API key", false⟩,
  ⟨"PermissionDeniedError:", some "Permission denied - check API key permissions", false⟩,
  ⟨"RateLimitError:", some "Rate limit exceeded", true⟩,
  ⟨"rate_limit_exceeded", some "Rate limit exceeded", true⟩,
  ⟨"Too Many Requests", some "Too many requests - rate limited", true⟩,
  ⟨"InternalServerError:", some "Provider server error", true⟩,
  ⟨"ServiceUnavailableError:", some "Provider service unavailable", true⟩,
  ⟨"BadGatewayError:", some "Provider bad gateway", true⟩,
  ⟨"GatewayTimeoutError:", some "Provider gateway timeout", true⟩,
  ⟨"Connection refused", some "Connection refused - service may be down", true⟩,
  ⟨"Connection reset", some "Connection reset - service may be down", true⟩,
  ⟨"ETIMEDOUT", some "Connection timed out", true⟩,
  ⟨"ECONNRESET", some "Connection reset by peer", true⟩,
  ⟨"InsufficientQuotaError:", some "Insufficient API quota", false⟩,
  ⟨"InvalidRequestError:", some "Invalid request parameters", false⟩,
  ⟨"[CANCELED]", some "Run was canceled by user", false⟩]

/-- The box-drawing characters skipped by `_extract_error_message`. -/
def boxChars : List Char := "─│╭╮╯╰├┤┬┴┼═╔╗╚╝━┃┏┓┗┛".toList

/-- Python's `str.strip`: remove leading and trailing whitespace. -/
def pyStrip (s : String) : String :=
  ⟨((s.toList.dropWhile Char.isWhitespace).reverse.dropWhile Char.isWhitespace).reverse⟩

/-- Python's `str.split('\\n')`: split at every newline, keeping empty
segments (the empty string splits to one empty segment). -/
def splitOnNlAux : List Char → List Char → List String
  | [], acc => [⟨acc.reverse⟩]
  | '\n' :: rest, acc => ⟨acc.reverse⟩ :: splitOnNlAux rest []
  | c :: rest, acc => splitOnNlAux rest (c :: acc)

/-- Python's `'\\n'.join`. -/
def joinNl : List String → String
  | [] => ""
  | [l] => l
  | l :: rest => l ++ "\n" ++ joinNl rest

/-- A line that `_extract_error_message` keeps: nonempty after strip and
not made up entirely of box-drawing characters. -/
def goodLine (l : String) : Bool :=
  let clean := pyStrip l
  !(clean = "" || clean.toList.all (fun c => c ∈ boxChars))

/-- Finds the suffix of the line list starting at the first kept line
that contains the trigger pattern (the scan-and-`break` loop of
`_extract_error_message`). -/
def findTriggerSuffix (trigger : String) : List String → Option (List String)
  | [] => none
  | l :: rest =>
    if goodLine l && containsPat l trigger then some (l :: rest)
    else findTriggerSuffix trigger rest

/-- `RunExecutor._extract_error_message` (executor.py lines 215-253):
from the first kept line containing the trigger, collect up to five
following lines, keep the nonempty non-box ones, and return the first
three joined with newlines. -/
def extract_error_message (content : String) (trigger : String) : Option String :=
  let lines := splitOnNlAux content.toList []
  match findTriggerSuffix trigger lines with
  | none => none
  | some suffix =>
    let errorLines := ((suffix.take 5).map pyStrip).filter
      (fun c => !(c = "" || c.toList.all (fun ch => ch ∈ boxChars)))
    match errorLines.take 3 with
    | [] => none
    | ls => some (joinNl ls)

/-- The first-match scan over the pattern table in
`RunExecutor._detect_failure`.  Returns
`(is_failure, error_message, is_retryable)`. -/
def detectList : List FailRule → String → Bool × Option String × Bool
  | [], _ => (false, none, false)
  | r :: rest, content =>
    if containsPat content r.pattern then
      match extract_error_message content r.pattern with
      | some m => (true, some m, r.retryable)
      | none =>
        match r.defaultMessage with
        | some dm => (true, some dm, r.retryable)
        | none => (true, some ("Benchmark failed: " ++ r.pattern), r.retryable)
    else detectList rest content

/-- `RunExecutor._detect_failure`: scan the combined
`stdout + "\n" + stderr` content against the ordered pattern table. -/
def detect_failure (stdout_content stderr_content : String) : Bool × Option String × Bool :=
  detectList failure_patterns (stdout_content ++ "\n" ++ stderr_content)

/-! ## Retry policy (`backend/app/core/retry.py`) -/

/-- `RetryConfig` from `app/core/retry.py` (floats as `ℚ`). -/
structure RetryConfig where
  max_retries : Nat := 5
  base_delay : ℚ := 1
  max_delay : ℚ := 32
  jitter : Bool := true
  jitter_range : ℚ := 1/4
  retryable_status_codes : List Nat := [429, 500, 502, 503, 504]
  non_retryable_status_codes : List Nat := [400, 401, 403, 404]
  retry_on_connection_error : Bool := true
  retry_on_timeout : Bool := true
deriving DecidableEq, Repr

/-- `DEFAULT_RETRY_CONFIG` from `app/core/retry.py`. -/
def DEFAULT_RETRY_CONFIG : RetryConfig := {}

/-- `calculate_delay` from `app/core/retry.py` (lines 145-171).
The draw `random.uniform(-jitter_amount, jitter_amount)` is modelled by
the explicit parameter `u`; theorems about the jittered branch carry the
hypothesis `|u| ≤ delay * jitter_range`. -/
def calculate_delay (attempt : Nat) (config : RetryConfig) (u : ℚ) : ℚ :=
  let delay := config.base_delay * 2 ^ attempt
  let delay := min delay config.max_delay
  if config.jitter then max (1/10) (delay + u) else delay

/-- `is_retryable_status_code` from `app/core/retry.py`. -/
def is_retryable_status_code (status_code : Nat) (config : RetryConfig) : Bool :=
  if status_code ∈ config.non_retryable_status_codes then false
  else status_code ∈ config.retryable_status_codes

/-! ## Executor retry loop (`RunExecutor.execute_run`) -/

/-- `RunExecutor.MAX_RETRIES` (executor.py line 70). -/
def MAX_RETRIES : Nat := 5

/-- What the executor task observes during one attempt of the retry
loop.  The two `canceled` fields are the values of
`run.run_id ∈ self._canceled_runs` at the loop-top check (executor.py
line 337) and at the post-exit check (line 403); they are oracle inputs
because the set is mutated concurrently by `cancel_run`.  `stdoutLog` /
`stderrLog` are the cumulative log-file contents read back after the
attempt (the files are opened in append mode on retries). -/
structure AttemptObs where
  canceledBefore : Bool
  exitCode : Int
  canceledAfter : Bool
  stdoutLog : String
  stderrLog : String
deriving DecidableEq, Repr

/-- How the retry loop of `execute_run` ended. -/
inductive LoopOutcome where
  /-- Returned at executor.py line 346: canceled before the attempt
  started; `CANCELED` was persisted inside the loop. -/
  | canceledBefore (attempt : Nat)
  /-- Returned at executor.py line 418: canceled detected right after
  process exit; only `meta.json` is written (the canceller persists the
  status). -/
  | canceledAfter (attempt : Nat) (exitCode : Int)
  /-- The loop `break` cases: a terminal status with its error message,
  the attempt index that broke the loop, and the last exit code. -/
  | finished (status : RunStatus) (error : Option String) (attempt : Nat) (exitCode : Int)
  /-- Fuel exhausted; unreachable when the loop is entered with
  `MAX_RETRIES + 1 - attempt` fuel, because the retry branch requires
  `attempt < MAX_RETRIES`. -/
  | exhausted
deriving DecidableEq, Repr

/-- Observable side effects of `execute_run` / `cancel_run`, in program
order.  File writes other than `meta.json` and the log files' retry
markers are elided; `persistStatus` is a `run_store.update_run` call
that sets `status` (and `error`), `broadcastEvent` is a WebSocket
broadcast with the given event type. -/
inductive RunEffect where
  | persistStatus (st : RunStatus) (error : Option String)
  | broadcastEvent (ty : String)
  | launch (attempt : Nat)
  | writeMeta (st : RunStatus)
  | notify (st : RunStatus)
deriving DecidableEq, Repr

/-- Python's `s[-n:]`. -/
def pyTail (n : Nat) (s : String) : String :=
  ⟨s.toList.drop (s.toList.length - n)⟩

/-- The fallback error of the `FAILED` break branch (executor.py
line 460): `stderr_content[-1000:] if stderr_content else
f"Process exited with code {exit_code}"`, used when the classifier
produced no (truthy) message. -/
def failedError (detected : Option String) (stderrLog : String) (exitCode : Int) : String :=
  match detected with
  | some s => if s = "" then
      (if stderrLog ≠ "" then pyTail 1000 stderrLog
       else "Process exited with code " ++ toString exitCode)
    else s
  | none =>
      if stderrLog ≠ "" then pyTail 1000 stderrLog
      else "Process exited with code " ++ toString exitCode

/-- The retry loop of `RunExecutor.execute_run` (executor.py lines
335-470), as a fuel-indexed recursion: one fuel unit per loop
iteration, entered with fuel `MAX_RETRIES + 1` at attempt `0`.  Returns
the effects emitted inside the loop (in order) and the loop outcome. -/
def execLoop (env : Nat → AttemptObs) (attempt : Nat) : Nat → List RunEffect × LoopOutcome
  | 0 => ([], .exhausted)
  | fuel + 1 =>
    let obs := env attempt
    if obs.canceledBefore then
      ([.persistStatus .CANCELED none], .canceledBefore attempt)
    else
      let pre := (if attempt > 0 then [RunEffect.broadcastEvent "retrying"] else [])
        ++ [RunEffect.launch attempt]
      if obs.canceledAfter then
        (pre ++ [.writeMeta .CANCELED], .canceledAfter attempt obs.exitCode)
      else
        let d := detect_failure obs.stdoutLog obs.stderrLog
        if obs.exitCode = 0 ∧ d.1 = false then
          (pre, .finished .COMPLETED none attempt obs.exitCode)
        else if obs.exitCode = 130 then
          (pre, .finished .CANCELED (some "Run was canceled") attempt obs.exitCode)
        else if d.2.2 = true ∧ attempt < MAX_RETRIES then
          let rec_result := execLoop env (attempt + 1) fuel
          (pre ++ rec_result.1, rec_result.2)
        else
          let base := failedError d.2.1 obs.stderrLog obs.exitCode
          let err := if attempt > 0 then
              base ++ " (failed after " ++ toString (attempt + 1) ++ " attempts)"
            else base
          (pre, .finished .FAILED (some err) attempt obs.exitCode)

/-- `RunExecutor.execute_run` (executor.py lines 255-543), as the
ordered list of its observable effects.  The missing-configuration
guard, the `RUNNING` transition, the retry loop, and the terminal
persistence / broadcast / notification are modelled; artifact-file
writes other than `meta.json` are elided. -/
def execute_run (run : Run) (env : Nat → AttemptObs) : List RunEffect :=
  match run.config with
  | none => [.persistStatus .FAILED (some "No configuration provided")]
  | some _ =>
    let pre : List RunEffect := [.persistStatus .RUNNING none, .broadcastEvent "status"]
    let loopResult := execLoop env 0 (MAX_RETRIES + 1)
    match loopResult.2 with
    | .canceledBefore _ => pre ++ loopResult.1
    | .canceledAfter _ _ => pre ++ loopResult.1
    | .finished st err _ _ =>
      pre ++ loopResult.1
        ++ [.writeMeta st, .persistStatus st err, .broadcastEvent st.value]
        ++ (if run.user_id.isSome ∧ (st = .COMPLETED ∨ st = .FAILED) then
              [RunEffect.notify st]
            else [])
    | .exhausted => pre ++ loopResult.1

/-- Number of subprocess launches recorded in an effect list. -/
def countLaunches : List RunEffect → Nat
  | [] => 0
  | .launch _ :: rest => countLaunches rest + 1
  | _ :: rest => countLaunches rest

/-! ## Cancellation (`RunExecutor.cancel_run`) -/

/-- The executor's shared mutable registries
(`self._running_processes` keyed presence and `self._canceled_runs`),
as characteristic functions. -/
structure ExecutorState where
  running : String → Bool
  canceled : String → Bool

/-- How the subprocess reacts to the termination attempt in
`cancel_run`: it exits within the 5s grace period, it survives the
grace period and is killed, or `terminate()` raises
`PermissionError`/`OSError` (caught by the handler). -/
inductive TermBehavior where
  | graceful
  | timeoutThenKill
  | raisesOSError
deriving DecidableEq, Repr

/-- Observable steps of `cancel_run`, in program order. -/
inductive CancelEffect where
  | markCanceled
  | sigterm
  | waitGrace
  | sigkill
  | unregister
  | persistCanceled
  | broadcastCanceled
deriving DecidableEq, Repr

/-- The signal-sending steps of `cancel_run` for each process
behavior (executor.py lines 614-626); the `raisesOSError` case stops
after the failed `terminate()`, which the handler swallows. -/
def termEffects : TermBehavior → List CancelEffect
  | .graceful => [.sigterm, .waitGrace]
  | .timeoutThenKill => [.sigterm, .waitGrace, .sigkill]
  | .raisesOSError => [.sigterm]

/-- `RunExecutor.cancel_run` (executor.py lines 594-646): returns the
boolean result, the updated registries, and the ordered effects. -/
def cancel_run (s : ExecutorState) (run_id : String) (tb : TermBehavior) :
    Bool × ExecutorState × List CancelEffect :=
  if s.running run_id then
    let s1 : ExecutorState :=
      { s with canceled := fun r => if r = run_id then true else s.canceled r }
    let s2 : ExecutorState :=
      { s1 with running := fun r => if r = run_id then false else s1.running r }
    (true, s2,
      [CancelEffect.markCanceled] ++ termEffects tb
        ++ [.unregister, .persistCanceled, .broadcastCanceled])
  else (false, s, [])

/-! ## Output tailer (`tail_file` in `backend/app/api/routes/ws.py`) -/

/-- The line-break characters of Python's `str.splitlines`. -/
def isLineBreak (c : Char) : Bool :=
  c = '\n' || c = '\r' || c = '\x0b' || c = '\x0c' ||
  c = '\x1c' || c = '\x1d' || c = '\x1e' || c = '\x85' ||
  c = '\u2028' || c = '\u2029'

/-- Python's `str.splitlines` on a character list: `\r\n` counts as one
break, a trailing segment without a final break is still returned, and
no empty final entry is produced for a trailing break.  The `afterCR`
flag records that the previous character was a line-ending `'\r'`, so
an immediately following `'\n'` is swallowed instead of ending a second
line. -/
def splitlinesAux : List Char → List Char → Bool → List String
  | [], acc, _ => if acc.isEmpty then [] else [⟨acc.reverse⟩]
  | c :: rest, acc, afterCR =>
    if afterCR && c = '\n' then splitlinesAux rest acc false
    else if c = '\r' then ⟨acc.reverse⟩ :: splitlinesAux rest [] true
    else if isLineBreak c then ⟨acc.reverse⟩ :: splitlinesAux rest [] false
    else splitlinesAux rest (c :: acc) false

/-- Python's `str.splitlines`. -/
def pySplitlines (s : String) : List String := splitlinesAux s.toList [] false

/-- The file system seen by the tailer: a map from path to file
content, `none` for a not-yet-existing file.  Byte offsets are modelled
as character offsets (the logs are treated as single-byte text). -/
def FileSystem := String → Option String

/-- `tail_file` from `app/api/routes/ws.py` (lines 134-151): seek to
`position`, read the rest, report the post-read position.  Seeking past
the end reads nothing and `tell()` reports the unchanged seek position,
hence the `max`. -/
def tail_file (fs : FileSystem) (path : String) (position : Nat) : List String × Nat :=
  match fs path with
  | none => ([], position)
  | some content =>
    let cs := content.toList
    (splitlinesAux (cs.drop position) [] false, max position cs.length)

/-- Splits a character list at `'\n'` terminators, discarding a
trailing unterminated segment: only complete lines are returned. -/
def completeSplitAux : List Char → List Char → List String
  | [], _ => []
  | c :: rest, acc =>
    if c = '\n' then ⟨acc.reverse⟩ :: completeSplitAux rest []
    else completeSplitAux rest (c :: acc)

/-- Length of the trailing segment after the last `'\n'` (the
unterminated tail a reader should leave for the next poll). -/
def pendingTailLen (cs : List Char) : Nat :=
  (cs.reverse.takeWhile (fun c => !(c == '\n'))).length

/-- Follows the spec's words (§4.4): "a pure function of (path,
last-read byte offset) → (new complete lines, new offset); it must
tolerate a not-yet-existing file (treated as no new lines)".  Returns
only the newline-terminated lines after the offset and advances the
offset just past the last complete line. -/
def tailFileSpecModel (fs : FileSystem) (path : String) (position : Nat) :
    List String × Nat :=
  match fs path with
  | none => ([], position)
  | some content =>
    let rest := content.toList.drop position
    (completeSplitAux rest [], position + (rest.length - pendingTailLen rest))

/-! ## Event broadcaster (`ConnectionManager.broadcast_to_run`) -/

/-- The send loop of `broadcast_to_run` (ws.py lines 83-88): every
connection in the snapshot is attempted; the ones whose send raises are
collected.  Returns `(delivered, disconnected)` in iteration order.
Connections are abstracted to identifiers; `sendOk c` tells whether
sending to `c` succeeds. -/
def deliverLoop (sendOk : Nat → Bool) : List Nat → List Nat × List Nat
  | [] => ([], [])
  | c :: cs =>
    let rest := deliverLoop sendOk cs
    if sendOk c then (c :: rest.1, rest.2) else (rest.1, c :: rest.2)

/-- `ConnectionManager.broadcast_to_run` (ws.py lines 77-97): send to a
snapshot of the run's subscriber list, then remove each subscriber
whose delivery errored.  Returns the successfully-delivered connections
and the updated subscriber list. -/
def broadcast_to_run (conns : List Nat) (sendOk : Nat → Bool) : List Nat × List Nat :=
  let r := deliverLoop sendOk conns
  (r.1, r.2.foldl (fun l c => l.erase c) conns)

/-! ## Progress parser (`backend/app/runner/progress_parser.py`)

The source expresses its five line patterns as Python regexes; they are
compiled here by hand into deterministic scanners.  All character
classes involved (`\d`, `\s`, `/`, `%`, the keywords) are pairwise
disjoint where adjacent, so greedy maximal-munch scanning coincides
with the regex engine's backtracking semantics, and each keyword
alternation has alternatives with pairwise distinct initial letters, so
at most one alternative can match at a given position. -/

/-- The `Progress` dataclass (floats as `ℚ`). -/
structure Progress where
  current : Int
  total : Int
  percentage : ℚ
  message : Option String := none
deriving DecidableEq, Repr

/-- Python `round(x, 1)`: round to one decimal place, ties to even. -/
def pyRound1 (x : ℚ) : ℚ :=
  let y := x * 10
  let n := ⌊y⌋
  let r := y - n
  let m : ℤ :=
    if r < 1/2 then n
    else if 1/2 < r then n + 1
    else if n % 2 = 0 then n else n + 1
  (m : ℚ) / 10

/-- Python `int` applied to a captured digit group. -/
def digitsToNat (cs : List Char) : Nat :=
  cs.foldl (fun n c => n * 10 + (c.toNat - 48)) 0

/-- Python `float` applied to the matched numeric text
(digits with an optional fractional part). -/
def decToRat (s : String) : ℚ :=
  match s.toList.span (fun c => !(c == '.')) with
  | (i, []) => (digitsToNat i : ℚ)
  | (i, _ :: f) => (digitsToNat i : ℚ) + (digitsToNat f : ℚ) / 10 ^ f.length

/-- Case-insensitive literal match: consumes the keyword, returns the
rest of the input. -/
def dropKwCI : List Char → List Char → Option (List Char)
  | [], cs => some cs
  | _ :: _, [] => none
  | k :: ks, c :: cs => if c.toLower = k.toLower then dropKwCI ks cs else none

/-- Keyword alternation: the first alternative matching at this
position. -/
def dropAnyKwCI : List String → List Char → Option (List Char)
  | [], _ => none
  | kw :: rest, cs =>
    match dropKwCI kw.toList cs with
    | some r => some r
    | none => dropAnyKwCI rest cs

/-- `\s+` consumed greedily. -/
def dropWs1 : List Char → Option (List Char)
  | [] => none
  | c :: rest =>
    if c.isWhitespace then some (rest.dropWhile Char.isWhitespace) else none

/-- `(\d+)` consumed greedily: the digit group and the rest. -/
def takeDigits1 (cs : List Char) : Option (List Char × List Char) :=
  let ds := cs.takeWhile Char.isDigit
  if ds.isEmpty then none else some (ds, cs.dropWhile Char.isDigit)

/-- `\s+(\d+)\s*/\s*(\d+)` (the shared tail of patterns 1 and 5). -/
def matchSlashPairAfterWs (cs : List Char) : Option (Nat × Nat) := do
  let r1 ← dropWs1 cs
  let (d1, r2) ← takeDigits1 r1
  let r3 := r2.dropWhile Char.isWhitespace
  match r3 with
  | '/' :: r4 =>
    let r5 := r4.dropWhile Char.isWhitespace
    let (d2, _) ← takeDigits1 r5
    some (digitsToNat d1, digitsToNat d2)
  | _ => none

/-- Pattern `(?:sample|item|example)\s+(\d+)\s*/\s*(\d+)` at one
position, case-insensitively. -/
def matchP1At (cs : List Char) : Option (Nat × Nat) := do
  let r ← dropAnyKwCI ["sample", "item", "example"] cs
  matchSlashPairAfterWs r

/-- Pattern `\[\s*(\d+)\s*/\s*(\d+)\s*\]` at one position. -/
def matchP2At : List Char → Option (Nat × Nat)
  | '[' :: r1 => do
    let r2 := r1.dropWhile Char.isWhitespace
    let (d1, r3) ← takeDigits1 r2
    let r4 := r3.dropWhile Char.isWhitespace
    match r4 with
    | '/' :: r5 =>
      let r6 := r5.dropWhile Char.isWhitespace
      let (d2, r7) ← takeDigits1 r6
      let r8 := r7.dropWhile Char.isWhitespace
      match r8 with
      | ']' :: _ => some (digitsToNat d1, digitsToNat d2)
      | _ => none
    | _ => none
  | _ => none

/-- `(\d+(?:\.\d+)?)\s*%` at one position; returns the numeric text. -/
def matchNumPercentAt (cs : List Char) : Option String := do
  let (d1, r1) ← takeDigits1 cs
  let (frac, r2) :=
    match r1 with
    | '.' :: r =>
      let ds := r.takeWhile Char.isDigit
      if ds.isEmpty then (([] : List Char), r1)
      else ('.' :: ds, r.dropWhile Char.isDigit)
    | _ => (([] : List Char), r1)
  let r3 := r2.dropWhile Char.isWhitespace
  match r3 with
  | '%' :: _ => some ⟨d1 ++ frac⟩
  | _ => none

/-- Pattern `(?:progress:?\s*)?(\d+(?:\.\d+)?)\s*%` at one position,
case-insensitively: the optional `progress` marker is tried greedily,
falling back to the bare percentage (the captured group is the same
either way). -/
def matchP3At (cs : List Char) : Option String :=
  match dropKwCI "progress".toList cs with
  | some r1 =>
    let r2 := match r1 with | ':' :: r => r | _ => r1
    let r3 := r2.dropWhile Char.isWhitespace
    (match matchNumPercentAt r3 with
     | some g => some g
     | none => matchNumPercentAt cs)
  | none => matchNumPercentAt cs

/-- Pattern `(?:completed|processed|finished)\s+(\d+)\s+of\s+(\d+)` at
one position, case-insensitively. -/
def matchP4At (cs : List Char) : Option (Nat × Nat) := do
  let r ← dropAnyKwCI ["completed", "processed", "finished"] cs
  let r1 ← dropWs1 r
  let (d1, r2) ← takeDigits1 r1
  let r3 ← dropWs1 r2
  let r4 ← dropKwCI "of".toList r3
  let r5 ← dropWs1 r4
  let (d2, _) ← takeDigits1 r5
  some (digitsToNat d1, digitsToNat d2)

/-- Pattern `(?:evaluating|running|processing)\s+(\d+)\s*/\s*(\d+)` at
one position, case-insensitively. -/
def matchP5At (cs : List Char) : Option (Nat × Nat) := do
  let r ← dropAnyKwCI ["evaluating", "running", "processing"] cs
  matchSlashPairAfterWs r

/-- `re.search`: try the position matcher at every start position; the
leftmost match wins. -/
def searchAt {α : Type} (m : List Char → Option α) : List Char → Option α
  | [] => m []
  | cs@(_ :: rest) =>
    match m cs with
    | some r => some r
    | none => searchAt m rest

/-- `parse_progress` from `app/runner/progress_parser.py` (lines
48-82): strip the line, try the five patterns in order with leftmost
search.  A two-group match yields `current/total` with a derived
percentage (0 when `total = 0`); the percentage-only pattern
synthesizes `current = int(percentage)`, `total = 100`.  The percentage
is rounded to one decimal and the stripped line, truncated to 200
characters, becomes the message. -/
def parse_progress (line : String) : Option Progress :=
  let l := pyStrip line
  if l = "" then none
  else
    let msg : Option String := some ⟨l.toList.take 200⟩
    let fromPair := fun (p : Nat × Nat) =>
      let percentage : ℚ := if 0 < p.2 then (p.1 : ℚ) / (p.2 : ℚ) * 100 else 0
      Progress.mk p.1 p.2 (pyRound1 percentage) msg
    match searchAt matchP1At l.toList with
    | some p => some (fromPair p)
    | none =>
    match searchAt matchP2At l.toList with
    | some p => some (fromPair p)
    | none =>
    match searchAt matchP3At l.toList with
    | some g =>
      let percentage := decToRat g
      some (Progress.mk ⌊percentage⌋ 100 (pyRound1 percentage) msg)
    | none =>
    match searchAt matchP4At l.toList with
    | some p => some (fromPair p)
    | none =>
    match searchAt matchP5At l.toList with
    | some p => some (fromPair p)
    | none => none

/-! ## Progress de-duplication in the run event stream -/

/-- One stdout line of the `websocket_run_events` streaming loop
(ws.py lines 247-254): parse the line and emit a `progress` event only
when it parses and differs from the previously emitted progress
(`if progress and progress != last_progress`).  Returns the updated
`last_progress` and the emitted event, if any. -/
def progressStep (last : Option Progress) (line : String) :
    Option Progress × Option Progress :=
  match parse_progress line with
  | none => (last, none)
  | some p => if some p = last then (last, none) else (some p, some p)

/-- The `progress` events emitted while feeding a list of lines through
the streaming loop. -/
def progressEvents (last : Option Progress) : List String → List Progress
  | [] => []
  | l :: ls =>
    match progressStep last l with
    | (last2, none) => progressEvents last2 ls
    | (last2, some p) => p :: progressEvents last2 ls

/-! # Theorems -/

/-! ## C3: the backoff delay formula -/

/-- **C3.** For every attempt index `n ≥ 0` and every retry
configuration, the computed backoff delay equals
`min(base_delay * 2^n, max_delay)`; when jitter is enabled the result
is perturbed by at most `± jitter_range` of that value and is floored
to the positive minimum `0.1`, so the returned delay is positive.  The
jitter draw `u` ranges over `[-delay * jitter_range, delay * jitter_range]`. -/
theorem calculate_delay_spec (attempt : Nat) (config : RetryConfig) (u : ℚ)
    (hu : |u| ≤ min (config.base_delay * 2 ^ attempt) config.max_delay * config.jitter_range) :
    (config.jitter = false →
      calculate_delay attempt config u
        = min (config.base_delay * 2 ^ attempt) config.max_delay) ∧
    (config.jitter = true →
      calculate_delay attempt config u
          = max (1/10) (min (config.base_delay * 2 ^ attempt) config.max_delay + u) ∧
        |min (config.base_delay * 2 ^ attempt) config.max_delay + u
            - min (config.base_delay * 2 ^ attempt) config.max_delay|
          ≤ min (config.base_delay * 2 ^ attempt) config.max_delay * config.jitter_range ∧
        0 < calculate_delay attempt config u) := by
  constructor
  · intro hj
    simp [calculate_delay, hj]
  · intro hj
    refine ⟨by simp [calculate_delay, hj], ?_, ?_⟩
    · simpa [add_sub_cancel_left] using hu
    · have h1 : (0 : ℚ) < 1/10 := by norm_num
      have h2 : (1/10 : ℚ)
          ≤ max (1/10) (min (config.base_delay * 2 ^ attempt) config.max_delay + u) :=
        le_max_left _ _
      have : calculate_delay attempt config u
          = max (1/10) (min (config.base_delay * 2 ^ attempt) config.max_delay + u) := by
        simp [calculate_delay, hj]
      rw [this]
      exact lt_of_lt_of_le h1 h2

/-- Witness for C3 at the default configuration, attempt `2`,
jitter draw `u = 1/10`. -/
theorem calculate_delay_spec_witness :
    |(1/10 : ℚ)|
        ≤ min (DEFAULT_RETRY_CONFIG.base_delay * 2 ^ 2) DEFAULT_RETRY_CONFIG.max_delay
          * DEFAULT_RETRY_CONFIG.jitter_range ∧
      (DEFAULT_RETRY_CONFIG.jitter = true →
        0 < calculate_delay 2 DEFAULT_RETRY_CONFIG (1/10)) :=
  ⟨by norm_num [DEFAULT_RETRY_CONFIG, abs_le], fun hj =>
    ((calculate_delay_spec 2 DEFAULT_RETRY_CONFIG (1/10)
      (by norm_num [DEFAULT_RETRY_CONFIG, abs_le])).2 hj).2.2⟩

/-! ## C5 and C10: the cancellation contract -/

/-- **C5.** `cancel_run` with no registered process returns `false` and
changes nothing; with a registered process it marks the run canceled
first (before any termination signal), unregisters the process,
persists `CANCELED`, broadcasts a `canceled` event, and returns
`true`. -/
theorem cancel_run_contract (s : ExecutorState) (run_id : String) (tb : TermBehavior) :
    (s.running run_id = false → cancel_run s run_id tb = (false, s, [])) ∧
    (s.running run_id = true →
      (cancel_run s run_id tb).1 = true ∧
      (cancel_run s run_id tb).2.1.canceled run_id = true ∧
      (∃ rest, (cancel_run s run_id tb).2.2 = CancelEffect.markCanceled :: rest ∧
        CancelEffect.sigterm ∈ rest) ∧
      CancelEffect.persistCanceled ∈ (cancel_run s run_id tb).2.2 ∧
      CancelEffect.broadcastCanceled ∈ (cancel_run s run_id tb).2.2) := by
  constructor
  · intro h
    simp [cancel_run, h]
  · intro h
    refine ⟨by simp [cancel_run, h], by simp [cancel_run, h], ?_, ?_, ?_⟩
    · refine ⟨termEffects tb ++ [.unregister, .persistCanceled, .broadcastCanceled],
        by simp [cancel_run, h], ?_⟩
      cases tb <;> simp [termEffects]
    · simp [cancel_run, h]
    · simp [cancel_run, h]

/-- Witness for C5: a state with `"r1"` registered and a state
without it. -/
theorem cancel_run_contract_witness :
    cancel_run ⟨fun _ => false, fun _ => false⟩ "r1" .graceful
        = (false, ⟨fun _ => false, fun _ => false⟩, []) ∧
      ((cancel_run ⟨fun r => r = "r1", fun _ => false⟩ "r1" .graceful).1 = true ∧
        CancelEffect.persistCanceled
          ∈ (cancel_run ⟨fun r => r = "r1", fun _ => false⟩ "r1" .graceful).2.2) :=
  ⟨(cancel_run_contract ⟨fun _ => false, fun _ => false⟩ "r1" .graceful).1 rfl,
    ((cancel_run_contract ⟨fun r => r = "r1", fun _ => false⟩ "r1" .graceful).2 (by simp)).1,
    ((cancel_run_contract ⟨fun r => r = "r1", fun _ => false⟩ "r1" .graceful).2 (by simp)).2.2.2.1⟩

/-- **C10.** Even when `terminate()` raises `PermissionError`/`OSError`
(the `raisesOSError` behavior), `cancel_run` on a registered process
still removes the registration, marks the run canceled, persists
`CANCELED`, broadcasts the `canceled` event, and returns `true`. -/
theorem cancel_run_oserror (s : ExecutorState) (run_id : String)
    (h : s.running run_id = true) :
    (cancel_run s run_id .raisesOSError).1 = true ∧
    (cancel_run s run_id .raisesOSError).2.1.running run_id = false ∧
    (cancel_run s run_id .raisesOSError).2.1.canceled run_id = true ∧
    CancelEffect.persistCanceled ∈ (cancel_run s run_id .raisesOSError).2.2 ∧
    CancelEffect.broadcastCanceled ∈ (cancel_run s run_id .raisesOSError).2.2 := by
  refine ⟨?_, ?_, ?_, ?_, ?_⟩ <;> simp [cancel_run, h, termEffects]

/-- Witness for C10 at a concrete one-run state. -/
theorem cancel_run_oserror_witness :
    (cancel_run ⟨fun r => r = "r1", fun _ => false⟩ "r1" .raisesOSError).1 = true ∧
      (cancel_run ⟨fun r => r = "r1", fun _ => false⟩ "r1" .raisesOSError).2.1.running "r1"
        = false :=
  ⟨(cancel_run_oserror ⟨fun r => r = "r1", fun _ => false⟩ "r1" (by simp)).1,
    (cancel_run_oserror ⟨fun r => r = "r1", fun _ => false⟩ "r1" (by simp)).2.1⟩

/-! ## C1: cancellation requested during the backoff window -/

/-- **C1 (code divergence).** Between attempts — e.g. during the
backoff sleep — the executor has already popped the run's process
registration, so `_running_processes` has no entry for the run.  In
that window `cancel_run` returns `false` and does **not** add the run
to `_canceled_runs` and persists nothing: the state is unchanged.
Consequently the loop-top cancellation check of the next attempt still
sees `canceledBefore = false`, a further subprocess **is** launched,
and the run finishes `COMPLETED` (here) rather than `CANCELED` — the
claimed property fails on the code.  (The dead loop-top check at
executor.py line 337 shows the claimed behavior was intended.) -/
theorem cancel_during_backoff_ignored :
    cancel_run ⟨fun _ => false, fun _ => false⟩ "r1" .graceful
        = (false, ⟨fun _ => false, fun _ => false⟩, []) ∧
      countLaunches (execLoop (fun _ => ⟨false, 0, false, "", ""⟩) 1 MAX_RETRIES).1 = 1 ∧
      (execLoop (fun _ => ⟨false, 0, false, "", ""⟩) 1 MAX_RETRIES).2
        = .finished .COMPLETED none 1 0 := by
  refine ⟨rfl, ?_, ?_⟩ <;> decide

/-! ## C4 and C8: the attempt bound and the configuration guard -/

lemma countLaunches_append (a b : List RunEffect) :
    countLaunches (a ++ b) = countLaunches a + countLaunches b := by
  induction a with
  | nil => simp [countLaunches]
  | cons x rest ih =>
    cases x <;> simp [countLaunches, ih]
    all_goals omega

lemma execLoop_launch_bound (env : Nat → AttemptObs) :
    ∀ (fuel attempt : Nat), countLaunches (execLoop env attempt fuel).1 ≤ fuel := by
  intro fuel
  induction fuel with
  | zero => intro attempt; simp [execLoop, countLaunches]
  | succ n ih =>
    intro attempt
    have hrec := ih (attempt + 1)
    simp only [execLoop]
    split_ifs <;> simp [countLaunches] <;> omega

/-- **C4.** For every run and every sequence of attempt observations,
`execute_run` launches at most `MAX_RETRIES + 1` subprocesses
(`MAX_RETRIES = 5`). -/
theorem execute_run_launch_bound (run : Run) (env : Nat → AttemptObs) :
    countLaunches (execute_run run env) ≤ MAX_RETRIES + 1 := by
  have hloop := execLoop_launch_bound env (MAX_RETRIES + 1) 0
  unfold execute_run
  cases hc : run.config with
  | none => simp [countLaunches]
  | some cfg =>
    cases ho : (execLoop env 0 (MAX_RETRIES + 1)).2 with
    | canceledBefore a =>
      simp only [ho, countLaunches_append]
      simpa [countLaunches] using hloop
    | canceledAfter a ec =>
      simp only [ho, countLaunches_append]
      simpa [countLaunches] using hloop
    | finished st err a ec =>
      simp only [ho, countLaunches_append]
      have hpost : countLaunches
          (if run.user_id.isSome ∧ (st = .COMPLETED ∨ st = .FAILED) then
            [RunEffect.notify st] else []) = 0 := by
        split_ifs <;> simp [countLaunches]
      simp only [hpost]
      simp [countLaunches] at hloop ⊢
      omega
    | exhausted =>
      simp only [ho, countLaunches_append]
      simpa [countLaunches] using hloop

/-- **C8.** A run without a resolved configuration is marked `FAILED`
immediately with a configuration error, and no subprocess is ever
launched. -/
theorem execute_run_no_config (run : Run) (env : Nat → AttemptObs)
    (h : run.config = none) :
    execute_run run env = [.persistStatus .FAILED (some "No configuration provided")] ∧
      countLaunches (execute_run run env) = 0 := by
  constructor <;> simp [execute_run, h, countLaunches]

/-- Witness for C8: a concrete run record with `config = none`. -/
theorem execute_run_no_config_witness :
    execute_run
        ⟨"r1", none, "mmlu", "openai/gpt-4o", .QUEUED, none, none, none, none, none, [], none⟩
        (fun _ => ⟨false, 0, false, "", ""⟩)
      = [.persistStatus .FAILED (some "No configuration provided")] :=
  (execute_run_no_config
    ⟨"r1", none, "mmlu", "openai/gpt-4o", .QUEUED, none, none, none, none, none, [], none⟩
    (fun _ => ⟨false, 0, false, "", ""⟩) rfl).1

/-! ## C2: exit code 0 is not authoritative -/

lemma detectList_match_yields_message (r : FailRule) (rest : List FailRule)
    (content : String) (h : containsPat content r.pattern = true) :
    (detectList (r :: rest) content).1 = true ∧
      (detectList (r :: rest) content).2.2 = r.retryable ∧
      (∃ m, (detectList (r :: rest) content).2.1 = some m) := by
  cases hx : extract_error_message content r.pattern with
  | some m => simp [detectList, h, hx]
  | none =>
    cases hd : r.defaultMessage with
    | some dm => simp [detectList, h, hx, hd]
    | none => simp [detectList, h, hx, hd]

lemma detectList_early_nonretryable :
    ∀ (l1 : List FailRule) (e : FailRule) (l2 : List FailRule) (content : String),
      containsPat content e.pattern = true →
      (∀ x ∈ l1, x.retryable = false) →
      e.retryable = false →
      (detectList (l1 ++ e :: l2) content).1 = true ∧
        (detectList (l1 ++ e :: l2) content).2.2 = false ∧
        (∃ m, (detectList (l1 ++ e :: l2) content).2.1 = some m) := by
  intro l1
  induction l1 with
  | nil =>
    intro e l2 content he _ her
    have h := detectList_match_yields_message e l2 content he
    simpa [her] using h
  | cons hd tl ih =>
    intro e l2 content he hall her
    by_cases hh : containsPat content hd.pattern = true
    · have h := detectList_match_yields_message hd (tl ++ e :: l2) content hh
      have : hd.retryable = false := hall hd (by simp)
      simpa [this] using h
    · have hrec := ih e l2 content he (fun x hx => hall x (by simp [hx])) her
      simp only [List.cons_append, detectList, Bool.not_eq_true] at *
      simp only [hh] at *
      simpa using hrec

/-- An authentication failure in the combined output always classifies
as a failure with `is_retryable = false`: every pattern at or before
`"AuthenticationError:"` in the ordered table is non-retryable, and the
first match wins. -/
lemma detect_failure_auth (stdoutLog stderrLog : String)
    (h : containsPat (stdoutLog ++ "\n" ++ stderrLog) "AuthenticationError:" = true) :
    (detect_failure stdoutLog stderrLog).1 = true ∧
      (detect_failure stdoutLog stderrLog).2.2 = false ∧
      (∃ m, (detect_failure stdoutLog stderrLog).2.1 = some m) := by
  have hsplit : failure_patterns =
      [⟨"Task interrupted (no samples completed", some "Benchmark interrupted - no samples completed", false⟩,
       ⟨"Error code:", none, false⟩,
       ⟨"NotFoundError:", some "Model not found or access denied", false⟩,
       ⟨"does not exist or you do not have access", some "Model not found or access denied", false⟩,
       ⟨"model_not_found", some "Model not found", false⟩]
      ++ (⟨"AuthenticationError:", some "Authentication failed - check API key", false⟩ : FailRule)
      :: [⟨"PermissionDeniedError:", some "Permission denied - check API key permissions", false⟩,
          ⟨"RateLimitError:", some "Rate limit exceeded", true⟩,
          ⟨"rate_limit_exceeded", some "Rate limit exceeded", true⟩,
          ⟨"Too Many Requests", some "Too many requests - rate limited", true⟩,
          ⟨"InternalServerError:", some "Provider server error", true⟩,
          ⟨"ServiceUnavailableError:", some "Provider service unavailable", true⟩,
          ⟨"BadGatewayError:", some "Provider bad gateway", true⟩,
          ⟨"GatewayTimeoutError:", some "Provider gateway timeout", true⟩,
          ⟨"Connection refused", some "Connection refused - service may be down", true⟩,
          ⟨"Connection reset", some "Connection reset - service may be down", true⟩,
          ⟨"ETIMEDOUT", some "Connection timed out", true⟩,
          ⟨"ECONNRESET", some "Connection reset by peer", true⟩,
          ⟨"InsufficientQuotaError:", some "Insufficient API quota", false⟩,
          ⟨"InvalidRequestError:", some "Invalid request parameters", false⟩,
          ⟨"[CANCELED]", some "Run was canceled by user", false⟩] := by
    decide
  unfold detect_failure
  rw [hsplit]
  exact detectList_early_nonretryable _ _ _ _ h (by decide) rfl

/-- **C2.** For an attempt whose subprocess exits with code 0 (with no
cancellation observed): if the combined output contains no failure
pattern the loop finishes `COMPLETED` at that attempt; if it contains
the authentication-failure pattern `"AuthenticationError:"` the loop
finishes `FAILED` at that attempt — never `COMPLETED` — despite the
zero exit code. -/
theorem exit_zero_outcome (env : Nat → AttemptObs) (attempt fuel : Nat)
    (hb : (env attempt).canceledBefore = false)
    (ha : (env attempt).canceledAfter = false)
    (hz : (env attempt).exitCode = 0) :
    ((detect_failure (env attempt).stdoutLog (env attempt).stderrLog).1 = false →
      (execLoop env attempt (fuel + 1)).2 = .finished .COMPLETED none attempt 0) ∧
    (containsPat ((env attempt).stdoutLog ++ "\n" ++ (env attempt).stderrLog)
        "AuthenticationError:" = true →
      ∃ e, (execLoop env attempt (fuel + 1)).2 = .finished .FAILED (some e) attempt 0) := by
  constructor
  · intro hnofail
    simp [execLoop, hb, ha, hz, hnofail]
  · intro hauth
    obtain ⟨hfail, hretry, m, hm⟩ := detect_failure_auth _ _ hauth
    refine ⟨(if attempt > 0 then
        failedError (detect_failure (env attempt).stdoutLog (env attempt).stderrLog).2.1
            (env attempt).stderrLog (env attempt).exitCode
          ++ " (failed after " ++ toString (attempt + 1) ++ " attempts)"
      else
        failedError (detect_failure (env attempt).stdoutLog (env attempt).stderrLog).2.1
          (env attempt).stderrLog (env attempt).exitCode), ?_⟩
    simp [execLoop, hb, ha, hz, hfail, hretry]

/-- Witness for C2: a clean zero-exit attempt completes; a zero-exit
attempt whose output reports an authentication error fails. -/
theorem exit_zero_outcome_witness :
    (execLoop (fun _ => ⟨false, 0, false, "All 5 samples done", ""⟩) 0 6).2
        = .finished .COMPLETED none 0 0 ∧
      ∃ e, (execLoop (fun _ => ⟨false, 0, false, "AuthenticationError: invalid api key", ""⟩)
          0 6).2 = .finished .FAILED (some e) 0 0 :=
  ⟨(exit_zero_outcome (fun _ => ⟨false, 0, false, "All 5 samples done", ""⟩) 0 5
      rfl rfl rfl).1 (by decide),
    (exit_zero_outcome (fun _ => ⟨false, 0, false, "AuthenticationError: invalid api key", ""⟩)
      0 5 rfl rfl rfl).2 (by decide)⟩

/-! ## C6: the tailer -/

/-- **C6 (counterexample).** `tail_file` does not return only
*complete* lines: on a file whose content `"abc"` has no terminating
newline, it returns the incomplete line `"abc"` and advances the offset
past it, while the spec's "newly appended complete lines after that
offset" yields no line and leaves the offset at `0`. -/
theorem tail_file_incomplete_line_counterexample :
    tail_file (fun p => if p = "stdout.log" then some "abc" else none) "stdout.log" 0
        = (["abc"], 3) ∧
      tailFileSpecModel (fun p => if p = "stdout.log" then some "abc" else none) "stdout.log" 0
        = ([], 0) ∧
      tail_file (fun p => if p = "stdout.log" then some "abc" else none) "stdout.log" 0
        ≠ tailFileSpecModel (fun p => if p = "stdout.log" then some "abc" else none)
            "stdout.log" 0 := by
  refine ⟨?_, ?_, ?_⟩ <;> decide

lemma pendingTailLen_of_endsNl (cs : List Char) (h : cs.getLast? = some '\n') :
    pendingTailLen cs = 0 := by
  have hrev : cs.reverse.head? = some '\n' := by
    rw [List.head?_reverse]; exact h
  cases hr : cs.reverse with
  | nil => rw [hr] at hrev; simp at hrev
  | cons d ds =>
    rw [hr] at hrev
    have hd : d = '\n' := by simpa using hrev
    subst hd
    simp [pendingTailLen, hr]

lemma splitlinesAux_cons_nl (rest : List Char) (acc : List Char) :
    splitlinesAux ('\n' :: rest) acc false = ⟨acc.reverse⟩ :: splitlinesAux rest [] false := by
  simp [splitlinesAux, isLineBreak]

lemma splitlinesAux_cons_other (c : Char) (rest : List Char) (acc : List Char)
    (hnb : isLineBreak c = false) :
    splitlinesAux (c :: rest) acc false = splitlinesAux rest (c :: acc) false := by
  have hcr : ¬(c = '\r') := by
    intro h; subst h; simp [isLineBreak] at hnb
  simp [splitlinesAux, hnb, hcr]

lemma completeSplitAux_cons_nl (rest : List Char) (acc : List Char) :
    completeSplitAux ('\n' :: rest) acc = ⟨acc.reverse⟩ :: completeSplitAux rest [] := by
  simp [completeSplitAux]

lemma completeSplitAux_cons_other (c : Char) (rest : List Char) (acc : List Char)
    (hc : ¬(c = '\n')) :
    completeSplitAux (c :: rest) acc = completeSplitAux rest (c :: acc) := by
  simp [completeSplitAux, hc]

lemma splitlines_complete_eq :
    ∀ (cs : List Char) (acc : List Char),
      (∀ c ∈ cs, isLineBreak c = true → c = '\n') →
      cs.getLast? = some '\n' →
      splitlinesAux cs acc false = completeSplitAux cs acc := by
  intro cs
  induction cs with
  | nil => intro acc _ h; simp at h
  | cons c rest ih =>
    intro acc hbr hlast
    cases rest with
    | nil =>
      have hc : c = '\n' := by simpa using hlast
      subst hc
      rw [splitlinesAux_cons_nl, completeSplitAux_cons_nl]
      simp [splitlinesAux, completeSplitAux]
    | cons d ds =>
      have hlast' : (d :: ds).getLast? = some '\n' := by
        rw [List.getLast?_cons_cons] at hlast; exact hlast
      have hbr' : ∀ c' ∈ d :: ds, isLineBreak c' = true → c' = '\n' :=
        fun c' hc' hb => hbr c' (by simp [hc']) hb
      by_cases hc : c = '\n'
      · subst hc
        rw [splitlinesAux_cons_nl, completeSplitAux_cons_nl, ih [] hbr' hlast']
      · have hnb : isLineBreak c = false := by
          cases hb : isLineBreak c with
          | false => rfl
          | true => exact absurd (hbr c (by simp) hb) hc
        rw [splitlinesAux_cons_other c _ _ hnb, completeSplitAux_cons_other c _ _ hc,
          ih (c :: acc) hbr' hlast']

/-- **C6 (amended).** For a not-yet-existing file the tailer returns no
lines and leaves the offset unchanged, exactly as claimed.  For an
existing file the tailer returns *all* content after the offset split
into lines — including a trailing line not yet terminated by a newline
— and the end-of-file offset; this coincides with "exactly the newly
appended complete lines after that offset together with the new
offset" precisely when the appended content ends at a line boundary
(and uses `\n` line breaks). -/
theorem tail_file_amended (fs : FileSystem) (path : String) (position : Nat) :
    (fs path = none → tail_file fs path position = ([], position)) ∧
    (∀ content, fs path = some content →
      (∀ c ∈ content.toList.drop position, isLineBreak c = true → c = '\n') →
      (content.toList.drop position = [] ∨
        (content.toList.drop position).getLast? = some '\n') →
      tail_file fs path position = tailFileSpecModel fs path position) := by
  constructor
  · intro h
    simp [tail_file, h]
  · intro content hc hbr hend
    simp only [tail_file, tailFileSpecModel, hc]
    rcases hend with hnil | hlast
    · have hlen : content.toList.length ≤ position := by
        by_contra h
        push_neg at h
        have hne : content.toList.drop position ≠ [] := by
          apply List.ne_nil_of_length_pos
          rw [List.length_drop]
          omega
        exact hne hnil
      rw [hnil]
      have hmax : max position content.toList.length = position := Nat.max_eq_left hlen
      simp [splitlinesAux, completeSplitAux, pendingTailLen, hmax]
      exact hlen
    · have h0 : pendingTailLen (content.toList.drop position) = 0 :=
        pendingTailLen_of_endsNl _ hlast
      have hne : content.toList.drop position ≠ [] := by
        intro h; rw [h] at hlast; simp at hlast
      have hlen : position < content.toList.length := by
        by_contra h
        push_neg at h
        exact hne (List.drop_eq_nil_of_le h)
      have heq := splitlines_complete_eq (content.toList.drop position) [] hbr hlast
      rw [heq, h0]
      have hmax : max position content.toList.length = content.toList.length :=
        Nat.max_eq_right (le_of_lt hlen)
      rw [hmax]
      have hdl : (content.toList.drop position).length
          = content.toList.length - position := List.length_drop _ _
      rw [hdl]
      have : position + (content.toList.length - position - 0)
          = content.toList.length := by omega
      rw [this]

/-- Witness for C6 (amended): a file whose new content ends in a
newline is tailed identically by the code and by the spec reading. -/
theorem tail_file_amended_witness :
    tail_file (fun p => if p = "stdout.log" then some "abc\n" else none) "stdout.log" 0
      = tailFileSpecModel (fun p => if p = "stdout.log" then some "abc\n" else none)
          "stdout.log" 0 :=
  (tail_file_amended (fun p => if p = "stdout.log" then some "abc\n" else none)
      "stdout.log" 0).2 "abc\n" rfl (by decide) (by decide)

/-! ## C7: progress de-duplication -/

/-- **C7.** A `progress` event is emitted only when the line parses to
a progress value that differs from the previously emitted one, and
feeding the identical progress line twice in succession emits exactly
one `progress` event. -/
theorem progress_dedup :
    (∀ (last : Option Progress) (line : String) (p : Progress),
        (progressStep last line).2 = some p →
        parse_progress line = some p ∧ some p ≠ last) ∧
    (∀ (line : String) (p : Progress),
        parse_progress line = some p →
        progressEvents none [line, line] = [p]) := by
  constructor
  · intro last line p h
    unfold progressStep at h
    cases hp : parse_progress line with
    | none => rw [hp] at h; simp at h
    | some q =>
      rw [hp] at h
      by_cases he : some q = last
      · simp [he] at h
      · simp [he] at h
        subst h
        exact ⟨rfl, he⟩
  · intro line p h
    have h1 : progressStep none line = (some p, some p) := by
      simp [progressStep, h]
    have h2 : progressStep (some p) line = (some p, none) := by
      simp [progressStep, h]
    simp [progressEvents, h1, h2]

/-- Witness for C7: the identical progress line twice yields exactly
one emitted progress event. -/
theorem progress_dedup_witness :
    (progressEvents none ["[10/20] Evaluating...", "[10/20] Evaluating..."]).length = 1 := by
  have hs : (parse_progress "[10/20] Evaluating...").isSome = true := by decide
  have h := progress_dedup.2 "[10/20] Evaluating..."
    ((parse_progress "[10/20] Evaluating...").get hs) (Option.some_get hs).symm
  rw [h]
  rfl

/-! ## C9: broadcast cleanup does not block delivery -/

lemma deliverLoop_eq_filter (ok : Nat → Bool) :
    ∀ conns : List Nat,
      deliverLoop ok conns = (conns.filter ok, conns.filter (fun c => !(ok c))) := by
  intro conns
  induction conns with
  | nil => simp [deliverLoop]
  | cons c cs ih =>
    by_cases h : ok c <;> simp [deliverLoop, List.filter_cons, h, ih]

lemma foldl_erase_all_ne (x : Nat) :
    ∀ (ds : List Nat) (l : List Nat), (∀ d ∈ ds, d ≠ x) →
      ds.foldl (fun acc c => acc.erase c) (x :: l)
        = x :: ds.foldl (fun acc c => acc.erase c) l := by
  intro ds
  induction ds with
  | nil => intro l _; rfl
  | cons d ds ih =>
    intro l h
    have hdx : d ≠ x := h d (by simp)
    simp only [List.foldl_cons]
    rw [List.erase_cons_tail]
    · exact ih (l.erase d) (fun d' hd' => h d' (by simp [hd']))
    · simp [Ne.symm hdx]

lemma foldl_erase_filter (ok : Nat → Bool) :
    ∀ l : List Nat,
      (l.filter (fun c => !(ok c))).foldl (fun acc c => acc.erase c) l
        = l.filter ok := by
  intro l
  induction l with
  | nil => rfl
  | cons x xs ih =>
    by_cases h : ok x
    · have hne : ∀ d ∈ xs.filter (fun c => !(ok c)), d ≠ x := by
        intro d hd he
        have hdm := List.of_mem_filter hd
        subst he
        simp [h] at hdm
      rw [List.filter_cons_of_neg (by simp [h]),
        foldl_erase_all_ne x _ _ hne, ih, List.filter_cons_of_pos (by simp [h])]
    · rw [List.filter_cons_of_pos (by simp [h])]
      simp only [List.foldl_cons, List.erase_cons_head]
      rw [ih, List.filter_cons_of_neg (by simp [h])]

/-- **C9.** In `broadcast_to_run`, a subscriber whose delivery errors
is removed from the subscriber list, every subscriber whose delivery
succeeds receives the event, and the surviving list is exactly the
successfully-delivered subscribers (one send failure never blocks the
others). -/
theorem broadcast_cleanup (conns : List Nat) (sendOk : Nat → Bool) :
    (broadcast_to_run conns sendOk).1 = conns.filter (fun c => sendOk c) ∧
    (broadcast_to_run conns sendOk).2 = conns.filter (fun c => sendOk c) ∧
    (∀ c ∈ conns, sendOk c = false → c ∉ (broadcast_to_run conns sendOk).2) ∧
    (∀ c ∈ conns, sendOk c = true → c ∈ (broadcast_to_run conns sendOk).1) := by
  have hd := deliverLoop_eq_filter sendOk conns
  have hf := foldl_erase_filter sendOk conns
  refine ⟨by simp [broadcast_to_run, hd], by simp [broadcast_to_run, hd, hf], ?_, ?_⟩
  · intro c hc hcf
    simp only [broadcast_to_run, hd, hf]
    simp [List.mem_filter, hcf]
  · intro c hc hco
    simp only [broadcast_to_run, hd]
    simp [List.mem_filter, hc, hco]

/-- Witness for C9: with subscribers `[1, 2, 3]` and delivery to `2`
erroring, `2` is removed while `1` still receives the event. -/
theorem broadcast_cleanup_witness :
    2 ∉ (broadcast_to_run [1, 2, 3] (fun c => !(c == 2))).2 ∧
      1 ∈ (broadcast_to_run [1, 2, 3] (fun c => !(c == 2))).1 :=
  ⟨(broadcast_cleanup [1, 2, 3] (fun c => !(c == 2))).2.2.1 2 (by decide) (by decide),
    (broadcast_cleanup [1, 2, 3] (fun c => !(c == 2))).2.2.2 1 (by decide) (by decide)⟩

end OpenBench
